import Mathlib

/-!
Shallow embedding of the TaskManager offline-first sync core.

Sources embedded:
- the local task store (`src/unnamed/part_001`, the tasks module backed by a
  SQLite table): task rows are modelled as a `List TaskRow` (the rows of the
  `tasks` table), and each exported function becomes a pure function on that
  list.  `ORDER BY` clauses are dropped: no settled property depends on row
  order, only on row membership.
- the sync engine (`src/lib/sync.ts`): remote calls are parameterised by a
  `ServerBehavior` oracle giving the outcome of each request, so the push,
  conflict-resolution and pull phases become pure state transformers.
-/

namespace TaskManager

/-- One row of the `tasks` table (`TaskRow` in the tasks module).  SQLite
integer booleans are modelled as `Bool`; `status` and `syncStatus` keep the
string values the code stores. -/
structure TaskRow where
  id : String
  title : String
  description : Option String
  status : String
  lastUpdatedAt : Nat
  serverLastUpdatedAt : Option Nat
  syncStatus : String
  locallyCreated : Bool
  locallyModified : Bool
  locallyDeleted : Bool
deriving Repr, DecidableEq

/-- The local store: the rows of the `tasks` table. -/
abbrev Store := List TaskRow

/-- Does the first char list start with the second? -/
def charsStartWith : List Char → List Char → Bool
  | _, [] => true
  | [], _ :: _ => false
  | a :: xs, b :: ys => a == b && charsStartWith xs ys

/-- Does the needle occur as a contiguous run inside the haystack? -/
def charsContain : List Char → List Char → Bool
  | [], needle => needle.isEmpty
  | a :: xs, needle => charsStartWith (a :: xs) needle || charsContain xs needle

/-- `String.prototype.includes(needle)` : substring occurrence. -/
def strIncludes (hay needle : String) : Bool :=
  charsContain hay.toList needle.toList

/-- `getTaskById` : `SELECT * FROM tasks WHERE id = ?` (first row). -/
def getTaskById (id : String) (s : Store) : Option TaskRow :=
  s.find? (fun t => t.id = id)

/-- `createTask` : inserts a fresh row with `status='pending'`,
`syncStatus='pending'`, `locallyCreated=1`, other flags 0, `serverLastUpdatedAt`
NULL.  The generated UUID and `Date.now()` are parameters. -/
def createTask (id title : String) (description : Option String) (now : Nat)
    (s : Store) : Store :=
  s ++ [{ id := id, title := title, description := description,
          status := "pending", lastUpdatedAt := now,
          serverLastUpdatedAt := none, syncStatus := "pending",
          locallyCreated := true, locallyModified := false,
          locallyDeleted := false }]

/-- `UpdateTaskInput`: each field is present or absent; `description` may be
set to NULL, hence the nested option. -/
structure UpdateTaskInput where
  title : Option String := none
  description : Option (Option String) := none
  status : Option String := none
deriving Repr, DecidableEq

/-- `updateTask` : no-op when the id is absent or no field is given; otherwise
sets the given fields and `lastUpdatedAt = now` on the matching row, and —
unless the existing row is `locallyCreated` — also `locallyModified = 1`,
`syncStatus = 'pending'`.  Note the code does not check `locallyDeleted`. -/
def updateTask (id : String) (input : UpdateTaskInput) (now : Nat)
    (s : Store) : Store :=
  match getTaskById id s with
  | none => s
  | some existing =>
    if input.title = none ∧ input.description = none ∧ input.status = none then
      s
    else
      s.map (fun t =>
        if t.id = id then
          let t1 : TaskRow :=
            { t with title := input.title.getD t.title,
                     description := input.description.getD t.description,
                     status := input.status.getD t.status,
                     lastUpdatedAt := now }
          if existing.locallyCreated then t1
          else { t1 with locallyModified := true, syncStatus := "pending" }
        else t)

/-- `deleteTask` : hard-deletes a `locallyCreated` row, otherwise soft-deletes
(`locallyDeleted = 1`, bumps `lastUpdatedAt`, `syncStatus = 'pending'`).  Note
the soft-delete does not clear `locallyModified`. -/
def deleteTask (id : String) (now : Nat) (s : Store) : Store :=
  match getTaskById id s with
  | none => s
  | some task =>
    if task.locallyCreated then
      s.filter (fun t => t.id ≠ id)
    else
      s.map (fun t =>
        if t.id = id then
          { t with locallyDeleted := true, lastUpdatedAt := now,
                   syncStatus := "pending" }
        else t)

/-- `toggleTaskComplete` : flips `status` between `'completed'` and
`'pending'` through `updateTask`. -/
def toggleTaskComplete (id : String) (now : Nat) (s : Store) : Store :=
  match getTaskById id s with
  | none => s
  | some task =>
    updateTask id
      { status := some (if task.status = "completed" then "pending" else "completed") }
      now s

/-- `getAllTasks` : `WHERE locallyDeleted = 0` (`ORDER BY` dropped). -/
def getAllTasks (s : Store) : List TaskRow :=
  s.filter (fun t => !t.locallyDeleted)

/-- `getLocallyCreatedTasks` : `WHERE locallyCreated = 1 AND locallyDeleted = 0`. -/
def getLocallyCreatedTasks (s : Store) : List TaskRow :=
  s.filter (fun t => t.locallyCreated && !t.locallyDeleted)

/-- `getLocallyModifiedTasks` :
`WHERE locallyModified = 1 AND locallyCreated = 0 AND locallyDeleted = 0`. -/
def getLocallyModifiedTasks (s : Store) : List TaskRow :=
  s.filter (fun t => t.locallyModified && !t.locallyCreated && !t.locallyDeleted)

/-- `getLocallyDeletedTasks` : `WHERE locallyDeleted = 1`. -/
def getLocallyDeletedTasks (s : Store) : List TaskRow :=
  s.filter (fun t => t.locallyDeleted)

/-- `markTaskAsSynced` : sets `syncStatus='synced'`, `locallyCreated=0`,
`locallyModified=0` and, when a server task is given, adopts its timestamp as
both `lastUpdatedAt` and `serverLastUpdatedAt`.  `locallyDeleted` is not
touched. -/
def markTaskAsSynced (id : String) (serverTs : Option Nat) (s : Store) : Store :=
  s.map (fun t =>
    if t.id = id then
      let t1 : TaskRow :=
        { t with syncStatus := "synced", locallyCreated := false,
                 locallyModified := false }
      match serverTs with
      | some ts => { t1 with lastUpdatedAt := ts, serverLastUpdatedAt := some ts }
      | none => t1
    else t)

/-- `removeSyncedDeletedTask` : `DELETE FROM tasks WHERE id = ?`. -/
def removeSyncedDeletedTask (id : String) (s : Store) : Store :=
  s.filter (fun t => t.id ≠ id)

/-- The argument shape of `upsertTaskFromServer`. -/
structure UpsertInput where
  id : String
  title : String
  description : Option String
  status : String
  lastUpdatedAt : Nat
deriving Repr, DecidableEq

/-- The row written by `upsertTaskFromServer`'s `INSERT OR REPLACE`. -/
def upsertRow (st : UpsertInput) : TaskRow :=
  { id := st.id, title := st.title, description := st.description,
    status := st.status, lastUpdatedAt := st.lastUpdatedAt,
    serverLastUpdatedAt := some st.lastUpdatedAt, syncStatus := "synced",
    locallyCreated := false, locallyModified := false, locallyDeleted := false }

/-- `upsertTaskFromServer` : `INSERT OR REPLACE` keyed on `id` — any existing
row with that id is replaced by the freshly synced row. -/
def upsertTaskFromServer (st : UpsertInput) (s : Store) : Store :=
  (s.filter (fun t => t.id ≠ st.id)) ++ [upsertRow st]

/-- `markTaskAsConflict` : sets only `syncStatus = 'conflict'`; the provenance
flags are left untouched. -/
def markTaskAsConflict (id : String) (s : Store) : Store :=
  s.map (fun t => if t.id = id then { t with syncStatus := "conflict" } else t)

/-! ### Remote client outcomes (`src/lib/api.ts`) -/

/-- `ApiTask` as returned by the remote service. -/
structure ServerTask where
  id : String
  userId : String
  title : String
  description : Option String
  status : String
  lastUpdatedAt : Nat
deriving Repr, DecidableEq

/-- Outcome of a create/update request, following api.ts's error taxonomy as
the sync engine branches on it: success, `ConflictError` (409, carrying the
server's current task), `NotFoundError` (404), or any other error with its
message. -/
inductive ApiOutcome where
  | ok (task : ServerTask)
  | conflict (serverTask : ServerTask)
  | notFound
  | otherError (msg : String)
deriving Repr, DecidableEq

/-- Outcome of a delete request (no body on success). -/
inductive DeleteOutcome where
  | ok
  | notFound
  | otherError (msg : String)
deriving Repr, DecidableEq

/-- Payload of `api.createTask` as built in `pushChanges`. -/
structure CreatePayload where
  title : String
  description : Option String
  status : String
  lastUpdatedAt : Nat
deriving Repr, DecidableEq

/-- Payload of `api.updateTask` as built in `pushChanges` / `handleConflict`
(the code always sends all four fields). -/
structure UpdatePayload where
  title : String
  description : Option String
  status : String
  lastUpdatedAt : Nat
deriving Repr, DecidableEq

/-- Oracle for the remote service: the outcome of each request the sync engine
can issue during one cycle, as a function of the request. -/
structure ServerBehavior where
  createRes : CreatePayload → ApiOutcome
  updateRes : String → UpdatePayload → ApiOutcome
  deleteRes : String → DeleteOutcome
  fetchRes : Except String (List ServerTask)

/-- Default error message of each non-ok outcome (`NotFoundError` and
`ConflictError` defaults from api.ts), used when a batch treats the outcome
as a generic failure. -/
def outcomeMsg : ApiOutcome → String
  | .ok _ => ""
  | .conflict _ => "Stale update conflict"
  | .notFound => "Resource not found"
  | .otherError m => m

/-! ### Sync engine (`src/lib/sync.ts`) -/

/-- The update payload `pushChanges` sends for a locally-modified task:
local field values with `serverLastUpdatedAt ?? lastUpdatedAt` as base. -/
def modifiedPayload (task : TaskRow) : UpdatePayload :=
  { title := task.title, description := task.description,
    status := task.status,
    lastUpdatedAt := task.serverLastUpdatedAt.getD task.lastUpdatedAt }

/-- The update payload `handleConflict` re-issues when the local task is
strictly newer: local field values with the server's timestamp as base. -/
def conflictRetryPayload (localTask : TaskRow) (serverTask : ServerTask) :
    UpdatePayload :=
  { title := localTask.title, description := localTask.description,
    status := localTask.status, lastUpdatedAt := serverTask.lastUpdatedAt }

/-- `handleConflict` : last-write-wins.  Local strictly newer → re-issue the
update with the server timestamp as base (synced on success, conflict mark on
failure); otherwise adopt the server version via `upsertTaskFromServer`. -/
def handleConflict (b : ServerBehavior) (localTask : TaskRow)
    (serverTask : ServerTask) (s : Store) : Store :=
  if serverTask.lastUpdatedAt < localTask.lastUpdatedAt then
    match b.updateRes localTask.id (conflictRetryPayload localTask serverTask) with
    | .ok updatedTask =>
        markTaskAsSynced localTask.id (some updatedTask.lastUpdatedAt) s
    | _ => markTaskAsConflict localTask.id s
  else
    upsertTaskFromServer
      { id := serverTask.id, title := serverTask.title,
        description := serverTask.description, status := serverTask.status,
        lastUpdatedAt := serverTask.lastUpdatedAt } s

/-- One iteration of the locally-created push loop: store plus accumulated
error strings. -/
def pushCreatedOne (b : ServerBehavior) (acc : Store × List String)
    (task : TaskRow) : Store × List String :=
  match b.createRes { title := task.title, description := task.description,
                      status := task.status,
                      lastUpdatedAt := task.lastUpdatedAt } with
  | .ok serverTask =>
      (markTaskAsSynced task.id (some serverTask.lastUpdatedAt) acc.1, acc.2)
  | res =>
      (acc.1,
       acc.2 ++ ["Failed to create task \"" ++ task.title ++ "\": "
                 ++ outcomeMsg res])

/-- One iteration of the locally-modified push loop. -/
def pushModifiedOne (b : ServerBehavior) (acc : Store × List String)
    (task : TaskRow) : Store × List String :=
  match b.updateRes task.id (modifiedPayload task) with
  | .ok serverTask =>
      (markTaskAsSynced task.id (some serverTask.lastUpdatedAt) acc.1, acc.2)
  | .conflict serverTask => (handleConflict b task serverTask acc.1, acc.2)
  | .notFound =>
      (markTaskAsConflict task.id acc.1,
       acc.2 ++ ["Task \"" ++ task.title ++ "\" was deleted on server"])
  | .otherError m =>
      (acc.1,
       acc.2 ++ ["Failed to update task \"" ++ task.title ++ "\": " ++ m])

/-- One iteration of the locally-deleted push loop: not-found counts as
success (the record is already absent server-side). -/
def pushDeletedOne (b : ServerBehavior) (acc : Store × List String)
    (task : TaskRow) : Store × List String :=
  match b.deleteRes task.id with
  | .ok => (removeSyncedDeletedTask task.id acc.1, acc.2)
  | .notFound => (removeSyncedDeletedTask task.id acc.1, acc.2)
  | .otherError m =>
      (acc.1,
       acc.2 ++ ["Failed to delete task \"" ++ task.title ++ "\": " ++ m])

/-- `pushChanges` : the three batches in order; each batch is queried from the
store as left by the previous one, exactly as the sequential awaits do. -/
def pushChanges (b : ServerBehavior) (s : Store) : Store × List String :=
  let acc1 := (getLocallyCreatedTasks s).foldl (pushCreatedOne b) (s, [])
  let acc2 := (getLocallyModifiedTasks acc1.1).foldl (pushModifiedOne b) acc1
  (getLocallyDeletedTasks acc2.1).foldl (pushDeletedOne b) acc2

/-- The set of locally-pending record ids built at the start of the pull
phase (created then modified then deleted query results). -/
def localPendingIdsOf (s : Store) : List String :=
  (getLocallyCreatedTasks s ++ getLocallyModifiedTasks s
    ++ getLocallyDeletedTasks s).map (fun t => t.id)

/-- Body of the pull phase's upsert loop: server records whose id is pending
locally are skipped, all others are upserted as synced. -/
def pullUpsertStep (localPendingIds : List String) (acc : Store)
    (st : ServerTask) : Store :=
  if localPendingIds.contains st.id then acc
  else
    upsertTaskFromServer
      { id := st.id, title := st.title, description := st.description,
        status := st.status, lastUpdatedAt := st.lastUpdatedAt } acc

/-- Body of the pull phase's deletion-reconciliation loop: a local task absent
from the server map is hard-deleted. -/
def pullRemoveStep (serverIds : List String) (acc : Store) (t : TaskRow) :
    Store :=
  if serverIds.contains t.id then acc
  else removeSyncedDeletedTask t.id acc

/-- `pullChanges` : fetch the remote set; protect locally-pending ids from
both the upsert loop and the server-side-deletion reconciliation; the guard
mirrors `serverTasks.length > 0 || !serverTasks.some(id includes 'undefined')`
verbatim.  Returns the new store and the pull error, if any. -/
def pullChanges (b : ServerBehavior) (s : Store) : Store × Option String :=
  match b.fetchRes with
  | .error msg => (s, some msg)
  | .ok serverTasks =>
    let localTasks := getAllTasks s
    let localPendingIds := localPendingIdsOf s
    let serverIds := serverTasks.map (fun t => t.id)
    if decide (serverTasks.length > 0)
        || !(serverTasks.any (fun t => strIncludes t.id "undefined")) then
      let s1 := serverTasks.foldl (pullUpsertStep localPendingIds) s
      let syncedLocalTasks := localTasks.filter (fun t =>
        !(localPendingIds.contains t.id) && !t.locallyCreated)
      let s2 := syncedLocalTasks.foldl (pullRemoveStep serverIds) s1
      (s2, none)
    else
      (s, none)

/-- Sync engine phase (`SyncState` in sync.ts). -/
inductive SyncState where
  | idle
  | syncing
  | error
deriving Repr, DecidableEq

/-- The engine's module-level mutable state together with the store it acts
on. -/
structure EngineState where
  syncState : SyncState
  lastSyncTime : Option Nat
  lastError : Option String
  isSyncInProgress : Bool
  store : Store
deriving Repr, DecidableEq

/-- The `SyncStatus` record published to status listeners. -/
structure PubStatus where
  state : SyncState
  lastSyncTime : Option Nat
  pendingChanges : Nat
  error : Option String
  isOnline : Bool
deriving Repr, DecidableEq

/-- `getPendingChangesCount` : sum of the three provenance-query lengths. -/
def getPendingChangesCount (s : Store) : Nat :=
  (getLocallyCreatedTasks s).length + (getLocallyModifiedTasks s).length
    + (getLocallyDeletedTasks s).length

/-- `getSyncStatus` : the status snapshot handed to listeners. -/
def getSyncStatus (online : Bool) (st : EngineState) : PubStatus :=
  { state := st.syncState, lastSyncTime := st.lastSyncTime,
    pendingChanges := getPendingChangesCount st.store,
    error := st.lastError, isOnline := online }

/-- JS truthiness of the optional error argument of `setSyncState`
(`undefined` and the empty string are falsy). -/
def errTruthy : Option String → Bool
  | none => false
  | some s => s ≠ ""

/-- `setSyncState` minus the listener notification (the caller records the
published status separately): sets the phase; a truthy error overwrites
`lastError`; otherwise entering `idle` clears it. -/
def setSyncState (state : SyncState) (error : Option String)
    (st : EngineState) : EngineState :=
  if errTruthy error then
    { st with syncState := state, lastError := error }
  else if state = SyncState.idle then
    { st with syncState := state, lastError := none }
  else
    { st with syncState := state }

/-- Everything one call to `sync()` produces: the final engine state, the
returned boolean, the statuses published to status listeners in order, and the
arguments passed to completion listeners. -/
structure SyncResult where
  state : EngineState
  returned : Bool
  published : List PubStatus
  completions : List (Bool × Option String)
deriving Repr

/-- The aggregated error message of a failed cycle:
`[...pushErrors, pullError ? 'Pull failed: ...' : ''].filter(Boolean).join('; ')`. -/
def aggregateErrorMsg (pushErrors : List String) (pullError : Option String) :
    String :=
  String.intercalate "; "
    ((pushErrors ++ [match pullError with
                     | some m => "Pull failed: " ++ m
                     | none => ""]).filter (fun x => x ≠ ""))

/-- `sync()` : rejects re-entrant calls, rejects offline calls (republishing
status), otherwise runs push then pull and lands in `idle` or `error`; the
`finally` clause clears the in-progress flag and republishes. -/
def sync (online : Bool) (b : ServerBehavior) (now : Nat)
    (st : EngineState) : SyncResult :=
  if st.isSyncInProgress then
    { state := st, returned := false, published := [], completions := [] }
  else if !online then
    { state := st, returned := false,
      published := [getSyncStatus online st], completions := [] }
  else
    let stA := setSyncState SyncState.syncing none
      { st with isSyncInProgress := true }
    let pub1 := getSyncStatus online stA
    let pushRes := pushChanges b stA.store
    let pullRes := pullChanges b pushRes.1
    let stC := { stA with store := pullRes.1 }
    if pushRes.2.isEmpty && pullRes.2.isNone then
      let stD := setSyncState SyncState.idle none
        { stC with lastSyncTime := some now }
      let stE := { stD with isSyncInProgress := false }
      { state := stE, returned := true,
        published := [pub1, getSyncStatus online stD, getSyncStatus online stE],
        completions := [(true, none)] }
    else
      let errorMsg := aggregateErrorMsg pushRes.2 pullRes.2
      let stD := setSyncState SyncState.error (some errorMsg) stC
      let stE := { stD with isSyncInProgress := false }
      { state := stE, returned := false,
        published := [pub1, getSyncStatus online stD, getSyncStatus online stE],
        completions := [(false, some errorMsg)] }

/-! ### Retry wrapper (`syncWithRetry`) -/

/-- `lastError?.includes('Unauthorized')` with JS optional chaining. -/
def errIncludesUnauthorized : Option String → Bool
  | none => false
  | some s => strIncludes s "Unauthorized"

/-- The delay computed before the next attempt: the fixed auth backoff when
the last error mentions 'Unauthorized', otherwise linear in the attempt
number. -/
def retryDelay (retryDelayMs errorBackoffMs : Nat) (lastErr : Option String)
    (attempt : Nat) : Nat :=
  if errIncludesUnauthorized lastErr then errorBackoffMs
  else retryDelayMs * attempt

/-- The loop body of `syncWithRetry`.  Each attempt is abstracted by
`att k = (result of sync(), status error read afterwards)`.  `remaining` is
the number of attempts still allowed including the current one; the result is
(returned boolean, final `lastError` variable, list of slept delays). -/
def syncWithRetryGo (retryDelayMs errorBackoffMs : Nat)
    (att : Nat → Bool × Option String) :
    Nat → Nat → Option String → List Nat → Bool × Option String × List Nat
  | 0, _, lastErr, delays => (false, lastErr, delays)
  | remaining + 1, attempt, lastErr, delays =>
    if (att attempt).1 then (true, lastErr, delays)
    else
      let lastErr2 := (att attempt).2
      if remaining = 0 then (false, lastErr2, delays)
      else
        syncWithRetryGo retryDelayMs errorBackoffMs att remaining (attempt + 1)
          lastErr2
          (delays ++ [retryDelay retryDelayMs errorBackoffMs lastErr2 attempt])

/-- `syncWithRetry(maxAttempts)` : attempts numbered from 1. -/
def syncWithRetry (retryDelayMs errorBackoffMs : Nat)
    (att : Nat → Bool × Option String) (maxAttempts : Nat) :
    Bool × Option String × List Nat :=
  syncWithRetryGo retryDelayMs errorBackoffMs att maxAttempts 1 none []

/-! ### Concrete sample data for witnesses and counterexamples -/

/-- A soft-deleted, never locally modified row. -/
def rowDeletedA : TaskRow :=
  { id := "a", title := "A", description := none, status := "pending",
    lastUpdatedAt := 4, serverLastUpdatedAt := some 1, syncStatus := "pending",
    locallyCreated := false, locallyModified := false, locallyDeleted := true }

/-- `rowDeletedA` after `markTaskAsSynced "a" (some 5)`. -/
def rowDeletedASynced : TaskRow :=
  { rowDeletedA with syncStatus := "synced", lastUpdatedAt := 5, serverLastUpdatedAt := some 5 }

/-- A locally-modified, previously synced row. -/
def rowModifiedA : TaskRow :=
  { id := "a", title := "A", description := none, status := "pending",
    lastUpdatedAt := 5, serverLastUpdatedAt := some 1, syncStatus := "pending",
    locallyCreated := false, locallyModified := true, locallyDeleted := false }

/-- A fully synced row with no pending change. -/
def rowSyncedB : TaskRow :=
  { id := "b", title := "B", description := none, status := "pending",
    lastUpdatedAt := 1, serverLastUpdatedAt := some 1, syncStatus := "synced",
    locallyCreated := false, locallyModified := false, locallyDeleted := false }

/-- A row that was modified and then soft-deleted: both flags set. -/
def rowBothMD : TaskRow :=
  { id := "c", title := "C", description := none, status := "pending",
    lastUpdatedAt := 6, serverLastUpdatedAt := some 2, syncStatus := "pending",
    locallyCreated := false, locallyModified := true, locallyDeleted := true }

/-- A server that answers not-found to every request and fails the fetch. -/
def behaviorNotFound : ServerBehavior :=
  { createRes := fun _ => ApiOutcome.notFound,
    updateRes := fun _ _ => ApiOutcome.notFound,
    deleteRes := fun _ => DeleteOutcome.notFound,
    fetchRes := Except.error "network down" }

/-- A server record whose id contains the substring 'undefined'. -/
def undefServerTask : ServerTask :=
  { id := "undefined-1", userId := "u1", title := "U", description := none,
    status := "pending", lastUpdatedAt := 7 }

/-- Fetch returns only records with 'undefined' ids. -/
def behaviorFetchUndef : ServerBehavior :=
  { behaviorNotFound with fetchRes := Except.ok [undefServerTask] }

/-- A server copy of record "a". -/
def serverTaskA : ServerTask :=
  { id := "a", userId := "u1", title := "ServerA", description := some "sd",
    status := "completed", lastUpdatedAt := 9 }

/-- Fetch returns the server copy of record "a". -/
def behaviorFetchA : ServerBehavior :=
  { behaviorNotFound with fetchRes := Except.ok [serverTaskA] }

/-- The server's current version of "a" at timestamp 200, as attached to a
409 conflict. -/
def serverTask200 : ServerTask :=
  { id := "a", userId := "u1", title := "S", description := some "srv",
    status := "completed", lastUpdatedAt := 200 }

/-- The server task returned by a successful conflict re-push. -/
def serverTask500 : ServerTask :=
  { id := "a", userId := "u1", title := "A", description := none,
    status := "pending", lastUpdatedAt := 500 }

/-- A server that accepts every update, acknowledging at timestamp 500. -/
def behaviorOk500 : ServerBehavior :=
  { behaviorNotFound with updateRes := fun _ _ => ApiOutcome.ok serverTask500 }

/-- Local edit of "a" strictly newer than `serverTask200`. -/
def rowLocal300 : TaskRow := { rowModifiedA with lastUpdatedAt := 300 }

/-- Local edit of "a" older than `serverTask200`. -/
def rowLocal100 : TaskRow := { rowModifiedA with lastUpdatedAt := 100 }

/-- `rowLocal300` after the re-pushed update is acknowledged at 500. -/
def rowSynced500 : TaskRow :=
  { rowLocal300 with syncStatus := "synced", locallyModified := false, lastUpdatedAt := 500, serverLastUpdatedAt := some 500 }

/-- Engine state with a sync cycle in flight. -/
def engInProgress : EngineState :=
  { syncState := SyncState.syncing, lastSyncTime := some 10,
    lastError := some "previous", isSyncInProgress := true,
    store := [rowSyncedB] }

/-- Quiescent engine state. -/
def engIdle : EngineState :=
  { syncState := SyncState.idle, lastSyncTime := some 10, lastError := none,
    isSyncInProgress := false, store := [rowSyncedB] }

/-- Attempt oracle where every sync attempt fails with a non-auth error. -/
def attAllFail : Nat → Bool × Option String := fun _ => (false, some "boom")

/-! ## Theorems -/

/-- Unpacking membership in the locally-created query. -/
theorem mem_getLocallyCreatedTasks {s : Store} {t : TaskRow} :
    t ∈ getLocallyCreatedTasks s ↔
      t ∈ s ∧ t.locallyCreated = true ∧ t.locallyDeleted = false := by
  simp [getLocallyCreatedTasks, List.mem_filter, and_assoc]

/-- Unpacking membership in the locally-modified query. -/
theorem mem_getLocallyModifiedTasks {s : Store} {t : TaskRow} :
    t ∈ getLocallyModifiedTasks s ↔
      t ∈ s ∧ t.locallyModified = true ∧ t.locallyCreated = false
        ∧ t.locallyDeleted = false := by
  simp [getLocallyModifiedTasks, List.mem_filter, and_assoc]

/-- Unpacking membership in the locally-deleted query. -/
theorem mem_getLocallyDeletedTasks {s : Store} {t : TaskRow} :
    t ∈ getLocallyDeletedTasks s ↔ t ∈ s ∧ t.locallyDeleted = true := by
  simp [getLocallyDeletedTasks, List.mem_filter]

/-- Rows of `markTaskAsSynced` carrying the target id have both push flags
cleared and `syncStatus = 'synced'`. -/
theorem markTaskAsSynced_mem_id {id : String} {ts : Option Nat} {s : Store} :
    ∀ t ∈ markTaskAsSynced id ts s, t.id = id →
      t.locallyCreated = false ∧ t.locallyModified = false
        ∧ t.syncStatus = "synced" := by
  intro t ht hid
  simp only [markTaskAsSynced, List.mem_map] at ht
  obtain ⟨a, -, rfl⟩ := ht
  by_cases h : a.id = id
  · simp only [h, if_true, if_pos]
    cases ts <;> simp
  · rw [if_neg h] at hid
    exact absurd hid h

/-- `markTaskAsSynced` does not touch the `locallyDeleted` column. -/
theorem markTaskAsSynced_deleted_flags (id : String) (ts : Option Nat)
    (s : Store) :
    (markTaskAsSynced id ts s).map (fun t => t.locallyDeleted)
      = s.map (fun t => t.locallyDeleted) := by
  induction s with
  | nil => rfl
  | cons a s ih =>
    simp only [markTaskAsSynced, List.map_cons] at ih ⊢
    rw [ih]
    by_cases h : a.id = id
    · simp only [h, if_true, if_pos]
      cases ts <;> rfl
    · rw [if_neg h]

/-- C1 — corrected.  After `markTaskAsSynced`, every row with the target id
has `locallyCreated = false`, `locallyModified = false` and
`syncStatus = 'synced'`; the `locallyDeleted` flag, however, is left exactly
as it was (the claim's \"all three provenance flags are false\" fails for it). -/
theorem markTaskAsSynced_clears_created_modified (id : String)
    (ts : Option Nat) (s : Store) :
    (∀ t ∈ markTaskAsSynced id ts s, t.id = id →
      t.locallyCreated = false ∧ t.locallyModified = false
        ∧ t.syncStatus = "synced")
    ∧ (markTaskAsSynced id ts s).map (fun t => t.locallyDeleted)
        = s.map (fun t => t.locallyDeleted) :=
  ⟨markTaskAsSynced_mem_id, markTaskAsSynced_deleted_flags id ts s⟩

/-- C1 counterexample: applying `markTaskAsSynced` to a soft-deleted row
yields a row that is `synced` yet still has `locallyDeleted = true`, so not
all three provenance flags are false. -/
theorem markTaskAsSynced_deleted_cex :
    ∃ t ∈ markTaskAsSynced "a" (some 5) [rowDeletedA],
      t.syncStatus = "synced" ∧ t.locallyDeleted = true := by decide

/-- C1 witness: the amended theorem applied to the concrete soft-deleted
store. -/
theorem markTaskAsSynced_clears_created_modified_witness :
    rowDeletedASynced ∈ markTaskAsSynced "a" (some 5) [rowDeletedA] ∧
    (rowDeletedASynced.locallyCreated = false
      ∧ rowDeletedASynced.locallyModified = false
      ∧ rowDeletedASynced.syncStatus = "synced") :=
  ⟨by decide,
   (markTaskAsSynced_clears_created_modified "a" (some 5) [rowDeletedA]).1
     rowDeletedASynced (by decide) (by decide)⟩

/-- The conflict-marked copy of a store row is a row of
`markTaskAsConflict`. -/
theorem markTaskAsConflict_mem_of_mem {id : String} {s : Store} {a : TaskRow}
    (ha : a ∈ s) (hid : a.id = id) :
    { a with syncStatus := "conflict" } ∈ markTaskAsConflict id s := by
  simp only [markTaskAsConflict, List.mem_map]
  exact ⟨a, ha, by rw [if_pos hid]⟩

/-- Rows of `markTaskAsConflict` carrying the target id have
`syncStatus = 'conflict'`. -/
theorem markTaskAsConflict_mem_id {id : String} {s : Store} :
    ∀ t ∈ markTaskAsConflict id s, t.id = id → t.syncStatus = "conflict" := by
  intro t ht hid
  simp only [markTaskAsConflict, List.mem_map] at ht
  obtain ⟨a, -, rfl⟩ := ht
  by_cases h : a.id = id
  · rw [if_pos h]
  · rw [if_neg h] at hid
    exact absurd hid h

/-- C2 — corrected.  A not-found outcome on a locally-modified push marks the
record `syncStatus = 'conflict'` and surfaces the error string, but the record
keeps its `locallyModified` flag and therefore remains in the
locally-modified batch (it will be retried as a plain update again). -/
theorem pushModified_notFound_conflict_still_retried
    (b : ServerBehavior) (s : Store) (errors : List String) (task : TaskRow)
    (hmem : task ∈ getLocallyModifiedTasks s)
    (hres : b.updateRes task.id (modifiedPayload task) = ApiOutcome.notFound) :
    (pushModifiedOne b (s, errors) task).2
      = errors ++ ["Task \"" ++ task.title ++ "\" was deleted on server"]
    ∧ ∃ t ∈ getLocallyModifiedTasks (pushModifiedOne b (s, errors) task).1,
        t.id = task.id ∧ t.syncStatus = "conflict" := by
  rw [mem_getLocallyModifiedTasks] at hmem
  obtain ⟨hs, hm, hc, hd⟩ := hmem
  constructor
  · simp [pushModifiedOne, hres]
  · refine ⟨{ task with syncStatus := "conflict" }, ?_, rfl, rfl⟩
    simp only [pushModifiedOne, hres]
    rw [mem_getLocallyModifiedTasks]
    exact ⟨markTaskAsConflict_mem_of_mem hs rfl, hm, hc, hd⟩

/-- C2 counterexample: a full push cycle whose update outcome is not-found
leaves the record inside `getLocallyModifiedTasks` of the resulting store, so
it is not \"never again retried as a plain update\". -/
theorem pushChanges_notFound_retry_cex :
    ∃ t ∈ getLocallyModifiedTasks (pushChanges behaviorNotFound [rowModifiedA]).1,
      t.id = "a" := by decide

/-- C2 witness: the amended theorem at the concrete one-row store. -/
theorem pushModified_notFound_conflict_still_retried_witness :
    rowModifiedA ∈ getLocallyModifiedTasks [rowModifiedA] ∧
    ∃ t ∈ getLocallyModifiedTasks
        (pushModifiedOne behaviorNotFound ([rowModifiedA], []) rowModifiedA).1,
      t.id = rowModifiedA.id ∧ t.syncStatus = "conflict" :=
  ⟨by decide,
   (pushModified_notFound_conflict_still_retried behaviorNotFound
     [rowModifiedA] [] rowModifiedA (by decide) rfl).2⟩

/-- A locally-modified batch row has `locallyDeleted = false` and is outside
the locally-deleted batch. -/
theorem modifiedBatch_no_deleted_aux (s : Store) :
    ∀ t ∈ getLocallyModifiedTasks s,
      t.locallyDeleted = false ∧ t ∉ getLocallyDeletedTasks s := by
  intro t ht
  rw [mem_getLocallyModifiedTasks] at ht
  obtain ⟨-, -, -, hd⟩ := ht
  refine ⟨hd, fun hmem => ?_⟩
  rw [mem_getLocallyDeletedTasks] at hmem
  rw [hmem.2] at hd
  exact absurd hd (by decide)

/-- C3 — corrected.  The flag-level mutual exclusion fails (see the
counterexample), but it holds at the level of the push batches: a
locally-modified batch row is never locally deleted and never also in the
locally-deleted batch — deletion supersedes modification for push purposes. -/
theorem modifiedBatch_excludes_deleted (s : Store) :
    ∀ t ∈ getLocallyModifiedTasks s,
      t.locallyDeleted = false ∧ t ∉ getLocallyDeletedTasks s :=
  modifiedBatch_no_deleted_aux s

/-- C3 counterexample: a pulled-in record that is updated and then deleted
through the store's own operations ends with `locallyModified = true` and
`locallyDeleted = true` simultaneously. -/
theorem modified_and_deleted_both_set_cex :
    ∃ t ∈ deleteTask "a" 3 (updateTask "a" { title := some "X" } 2
        (upsertTaskFromServer { id := "a", title := "T", description := none, status := "pending", lastUpdatedAt := 1 } [])),
      t.locallyModified = true ∧ t.locallyDeleted = true := by decide

/-- C3 witness: the amended theorem at a concrete store. -/
theorem modifiedBatch_excludes_deleted_witness :
    rowModifiedA ∈ getLocallyModifiedTasks [rowModifiedA, rowBothMD] ∧
    rowModifiedA ∉ getLocallyDeletedTasks [rowModifiedA, rowBothMD] :=
  ⟨by decide,
   (modifiedBatch_excludes_deleted [rowModifiedA, rowBothMD] rowModifiedA
     (by decide)).2⟩

/-- The pending-change count is the number of rows carrying at least one
provenance flag: the three query filters partition the flagged rows. -/
theorem pendingCount_filter (s : Store) :
    getPendingChangesCount s
      = (s.filter (fun t =>
          t.locallyCreated || t.locallyModified || t.locallyDeleted)).length := by
  induction s with
  | nil => rfl
  | cons a s ih =>
    simp only [getPendingChangesCount, getLocallyCreatedTasks,
      getLocallyModifiedTasks, getLocallyDeletedTasks, List.filter_cons] at ih ⊢
    cases hc : a.locallyCreated <;> cases hm : a.locallyModified <;>
      cases hd : a.locallyDeleted <;> simp [hc, hm, hd] <;> omega

/-- C10 — confirmed.  The three provenance queries are pairwise disjoint, a
record with both the modified and the deleted flag goes only through the
delete batch, and the pending-changes count (the sum of the three lengths)
counts each flagged row exactly once. -/
theorem provenance_queries_disjoint (s : Store) :
    (∀ t ∈ getLocallyCreatedTasks s, t ∉ getLocallyModifiedTasks s) ∧
    (∀ t ∈ getLocallyCreatedTasks s, t ∉ getLocallyDeletedTasks s) ∧
    (∀ t ∈ getLocallyModifiedTasks s, t ∉ getLocallyDeletedTasks s) ∧
    (∀ t ∈ s, t.locallyModified = true → t.locallyDeleted = true →
      t ∈ getLocallyDeletedTasks s ∧ t ∉ getLocallyModifiedTasks s
        ∧ t ∉ getLocallyCreatedTasks s) ∧
    getPendingChangesCount s
      = (s.filter (fun t =>
          t.locallyCreated || t.locallyModified || t.locallyDeleted)).length := by
  refine ⟨?_, ?_, ?_, ?_, pendingCount_filter s⟩
  · intro t ht hmem
    rw [mem_getLocallyCreatedTasks] at ht
    rw [mem_getLocallyModifiedTasks] at hmem
    rw [ht.2.1] at hmem
    exact absurd hmem.2.2.1 (by decide)
  · intro t ht hmem
    rw [mem_getLocallyCreatedTasks] at ht
    rw [mem_getLocallyDeletedTasks] at hmem
    rw [hmem.2] at ht
    exact absurd ht.2.2 (by decide)
  · intro t ht
    exact (modifiedBatch_no_deleted_aux s t ht).2
  · intro t ht hm hd
    refine ⟨mem_getLocallyDeletedTasks.mpr ⟨ht, hd⟩, fun hmem => ?_, fun hmem => ?_⟩
    · rw [mem_getLocallyModifiedTasks] at hmem
      rw [hd] at hmem
      exact absurd hmem.2.2.2 (by decide)
    · rw [mem_getLocallyCreatedTasks] at hmem
      rw [hd] at hmem
      exact absurd hmem.2.2 (by decide)

/-- C5 — confirmed.  A sync trigger while a cycle is in flight returns false,
publishes nothing, notifies no completion listener, leaves the whole engine
state (phase, lastSyncTime, lastError, store) unchanged, and its result does
not depend on the server at all — no push or pull work happens. -/
theorem sync_inProgress_rejected (online : Bool) (b : ServerBehavior)
    (now : Nat) (st : EngineState) (h : st.isSyncInProgress = true) :
    (sync online b now st).returned = false ∧
    (sync online b now st).state = st ∧
    (sync online b now st).published = [] ∧
    (sync online b now st).completions = [] ∧
    ∀ b' : ServerBehavior, sync online b' now st = sync online b now st := by
  simp [sync, h]

/-- C5 witness: the mutual-exclusion theorem at a concrete in-flight state. -/
theorem sync_inProgress_rejected_witness :
    engInProgress.isSyncInProgress = true ∧
    (sync true behaviorNotFound 0 engInProgress).returned = false ∧
    (sync true behaviorNotFound 0 engInProgress).state = engInProgress :=
  ⟨rfl, (sync_inProgress_rejected true behaviorNotFound 0 engInProgress rfl).1,
   (sync_inProgress_rejected true behaviorNotFound 0 engInProgress rfl).2.1⟩

/-- C8 — corrected.  An offline trigger with no cycle in flight returns false,
leaves the engine state unchanged, performs no server interaction, and
re-publishes the current status exactly once.  The claim's unconditional
\"still re-publishes\" fails when a cycle is in flight (see the
counterexample): the in-progress check precedes the offline check. -/
theorem sync_offline_rejected_republishes (b : ServerBehavior) (now : Nat)
    (st : EngineState) (h : st.isSyncInProgress = false) :
    (sync false b now st).returned = false ∧
    (sync false b now st).state = st ∧
    (sync false b now st).published = [getSyncStatus false st] ∧
    (sync false b now st).completions = [] ∧
    ∀ b' : ServerBehavior, sync false b' now st = sync false b now st := by
  simp [sync, h]

/-- C8 counterexample: offline call during an in-flight cycle returns false
without re-publishing any status. -/
theorem sync_offline_inProgress_no_publish_cex :
    (sync false behaviorNotFound 0 engInProgress).returned = false ∧
    (sync false behaviorNotFound 0 engInProgress).published = [] := ⟨rfl, rfl⟩

/-- C8 witness: the amended theorem at a concrete quiescent state. -/
theorem sync_offline_rejected_republishes_witness :
    engIdle.isSyncInProgress = false ∧
    (sync false behaviorNotFound 0 engIdle).published
      = [getSyncStatus false engIdle] :=
  ⟨rfl, (sync_offline_rejected_republishes behaviorNotFound 0 engIdle rfl).2.2.1⟩

/-- C9 — the claimed defensive skip never happens.  The guard
`serverTasks.length > 0 || !serverTasks.some(id includes 'undefined')` is true
for every server response (first conjunct), so the skip branch is dead code;
at the failing input — a response whose only record has id 'undefined-1' —
the pull still upserts that record and hard-deletes the synced local row
instead of silently skipping. -/
theorem pull_suspicious_skip_unreachable :
    (∀ l : List ServerTask,
      (decide (l.length > 0)
        || !(l.any (fun t => strIncludes t.id "undefined"))) = true) ∧
    (pullChanges behaviorFetchUndef [rowSyncedB]).1
      = [upsertRow { id := "undefined-1", title := "U", description := none, status := "pending", lastUpdatedAt := 7 }] ∧
    rowSyncedB ∉ (pullChanges behaviorFetchUndef [rowSyncedB]).1 := by
  refine ⟨fun l => ?_, by decide, by decide⟩
  cases l with
  | nil => rfl
  | cons a l => simp

/-- A row whose id differs from the upserted id survives
`upsertTaskFromServer`. -/
theorem mem_upsert_of_ne {st : UpsertInput} {t : TaskRow} {s : Store}
    (ht : t ∈ s) (hne : t.id ≠ st.id) : t ∈ upsertTaskFromServer st s :=
  List.mem_append_left _ (List.mem_filter.mpr ⟨ht, by simpa using hne⟩)

/-- A row whose id differs from the removed id survives
`removeSyncedDeletedTask`. -/
theorem mem_remove_of_ne {id : String} {t : TaskRow} {s : Store}
    (ht : t ∈ s) (hne : t.id ≠ id) : t ∈ removeSyncedDeletedTask id s :=
  List.mem_filter.mpr ⟨ht, by simpa using hne⟩

/-- Any row carrying a provenance flag has its id in the pull phase's
pending-id set. -/
theorem mem_localPendingIdsOf {s : Store} {t : TaskRow} (ht : t ∈ s)
    (hp : t.locallyCreated = true ∨ t.locallyModified = true
      ∨ t.locallyDeleted = true) :
    t.id ∈ localPendingIdsOf s := by
  rw [localPendingIdsOf, List.mem_map]
  refine ⟨t, ?_, rfl⟩
  rw [List.mem_append, List.mem_append]
  cases hd : t.locallyDeleted
  · cases hc : t.locallyCreated
    · have hm : t.locallyModified = true := by
        rcases hp with h | h | h
        · rw [h] at hc; exact absurd hc (by decide)
        · exact h
        · rw [h] at hd; exact absurd hd (by decide)
      exact Or.inl (Or.inr (mem_getLocallyModifiedTasks.mpr ⟨ht, hm, hc, hd⟩))
    · exact Or.inl (Or.inl (mem_getLocallyCreatedTasks.mpr ⟨ht, hc, hd⟩))
  · exact Or.inr (mem_getLocallyDeletedTasks.mpr ⟨ht, hd⟩)

/-- The upsert loop never touches a row whose id is in the pending set. -/
theorem foldl_pullUpsertStep_preserves (pend : List String) (t : TaskRow)
    (hid : t.id ∈ pend) :
    ∀ (l : List ServerTask) (acc : Store), t ∈ acc →
      t ∈ l.foldl (pullUpsertStep pend) acc := by
  intro l
  induction l with
  | nil => intro acc h; exact h
  | cons a l ih =>
    intro acc h
    rw [List.foldl_cons]
    apply ih
    unfold pullUpsertStep
    by_cases hc : pend.contains a.id = true
    · rw [if_pos hc]; exact h
    · rw [if_neg hc]
      exact mem_upsert_of_ne h (fun he =>
        hc (List.elem_iff.mpr ((show t.id = a.id from he) ▸ hid)))

/-- The deletion-reconciliation loop never removes a row whose id differs
from every loop element. -/
theorem foldl_pullRemoveStep_preserves (ids : List String) (t : TaskRow) :
    ∀ (l : List TaskRow) (acc : Store), t ∈ acc → (∀ r ∈ l, t.id ≠ r.id) →
      t ∈ l.foldl (pullRemoveStep ids) acc := by
  intro l
  induction l with
  | nil => intro acc h _; exact h
  | cons a l ih =>
    intro acc h hne
    rw [List.foldl_cons]
    refine ih _ ?_ (fun r hr => hne r (List.mem_cons_of_mem a hr))
    unfold pullRemoveStep
    by_cases hc : ids.contains a.id = true
    · rw [if_pos hc]; exact h
    · rw [if_neg hc]
      exact mem_remove_of_ne h (hne a (List.mem_cons_self a l))

/-- C6 — confirmed.  Every record with a pending local change (created,
modified or deleted flag) survives the pull phase entirely unchanged: its
exact row is still in the store afterwards — the upsert loop skips its id and
the deletion-reconciliation never targets it. -/
theorem pull_preserves_pending (b : ServerBehavior) (s : Store) (t : TaskRow)
    (ht : t ∈ s)
    (hp : t.locallyCreated = true ∨ t.locallyModified = true
      ∨ t.locallyDeleted = true) :
    t ∈ (pullChanges b s).1 := by
  have hid := mem_localPendingIdsOf ht hp
  unfold pullChanges
  cases hf : b.fetchRes with
  | error msg => exact ht
  | ok serverTasks =>
    dsimp only
    split
    · apply foldl_pullRemoveStep_preserves
      · exact foldl_pullUpsertStep_preserves _ t hid serverTasks s ht
      · intro r hr he
        obtain ⟨-, hcond⟩ := List.mem_filter.mp hr
        have h1 : (localPendingIdsOf s).contains r.id = false := by
          cases hcc : (localPendingIdsOf s).contains r.id
          · rfl
          · rw [hcc] at hcond; simp at hcond
        rw [he] at hid
        have h2 : (localPendingIdsOf s).contains r.id = true :=
          List.elem_iff.mpr hid
        rw [h2] at h1
        cases h1
    · exact ht

/-- C6 witness: a locally-modified row survives a pull that returns a server
copy of the same record. -/
theorem pull_preserves_pending_witness :
    rowModifiedA.locallyModified = true ∧
    rowModifiedA ∈ (pullChanges behaviorFetchA [rowModifiedA]).1 :=
  ⟨rfl, pull_preserves_pending behaviorFetchA [rowModifiedA] rowModifiedA
    (by decide) (Or.inr (Or.inl rfl))⟩

/-- The synced copy (with an adopted server timestamp) of a store row is a
row of `markTaskAsSynced`. -/
theorem markTaskAsSynced_mem_of_mem {id : String} {ts : Nat} {s : Store}
    {a : TaskRow} (ha : a ∈ s) (hid : a.id = id) :
    { a with syncStatus := "synced", locallyCreated := false, locallyModified := false, lastUpdatedAt := ts, serverLastUpdatedAt := some ts }
      ∈ markTaskAsSynced id (some ts) s := by
  simp only [markTaskAsSynced, List.mem_map]
  refine ⟨a, ha, ?_⟩
  rw [if_pos hid]

/-- A row of `upsertTaskFromServer` carrying the upserted id is exactly the
freshly synced server row. -/
theorem mem_upsert_eq {inp : UpsertInput} {t : TaskRow} {s : Store}
    (ht : t ∈ upsertTaskFromServer inp s) (hid : t.id = inp.id) :
    t = upsertRow inp := by
  rcases List.mem_append.mp ht with h | h
  · obtain ⟨-, hcond⟩ := List.mem_filter.mp h
    exact absurd hid (by simpa using hcond)
  · simpa using h

/-- C4 — confirmed.  Last-write-wins by timestamp: when the local record is
strictly newer, the re-issued payload keeps the local field values but uses
the server's timestamp as expected base; on success the record is marked
synced with the acknowledged timestamp, on any failing outcome it is marked
`conflict`.  When the local record is not newer, every row with the record's
id afterwards carries the server's field values and timestamp, marked synced
with all provenance flags clear. -/
theorem handleConflict_lastWriteWins (b : ServerBehavior) (lt : TaskRow)
    (st : ServerTask) (s : Store) :
    (st.lastUpdatedAt < lt.lastUpdatedAt →
      conflictRetryPayload lt st
        = { title := lt.title, description := lt.description, status := lt.status, lastUpdatedAt := st.lastUpdatedAt } ∧
      (∀ u : ServerTask,
        b.updateRes lt.id (conflictRetryPayload lt st) = ApiOutcome.ok u →
        ∀ t ∈ s, t.id = lt.id →
          { t with syncStatus := "synced", locallyCreated := false, locallyModified := false, lastUpdatedAt := u.lastUpdatedAt, serverLastUpdatedAt := some u.lastUpdatedAt }
            ∈ handleConflict b lt st s) ∧
      ((∀ u : ServerTask,
          b.updateRes lt.id (conflictRetryPayload lt st) ≠ ApiOutcome.ok u) →
        ∀ t ∈ handleConflict b lt st s, t.id = lt.id →
          t.syncStatus = "conflict"))
    ∧ (¬ st.lastUpdatedAt < lt.lastUpdatedAt →
      ∀ t ∈ handleConflict b lt st s, t.id = st.id →
        t.title = st.title ∧ t.description = st.description
          ∧ t.status = st.status ∧ t.lastUpdatedAt = st.lastUpdatedAt
          ∧ t.serverLastUpdatedAt = some st.lastUpdatedAt
          ∧ t.syncStatus = "synced" ∧ t.locallyCreated = false
          ∧ t.locallyModified = false ∧ t.locallyDeleted = false) := by
  constructor
  · intro hlt
    refine ⟨rfl, ?_, ?_⟩
    · intro u hu t ht hid
      unfold handleConflict
      rw [if_pos hlt, hu]
      exact markTaskAsSynced_mem_of_mem ht hid
    · intro hne t ht hid
      unfold handleConflict at ht
      rw [if_pos hlt] at ht
      split at ht
      · next u hu => exact absurd hu (hne u)
      · next => exact markTaskAsConflict_mem_id t ht hid
  · intro hge t ht hid
    unfold handleConflict at ht
    rw [if_neg hge] at ht
    have he := mem_upsert_eq ht hid
    rw [he]
    exact ⟨rfl, rfl, rfl, rfl, rfl, rfl, rfl, rfl, rfl⟩

/-- C4 witness: with local timestamp 300 against server 200 the re-push is
accepted and the synced row (local fields, acknowledged timestamp 500)
appears; the hypotheses are discharged at those concrete values. -/
theorem handleConflict_lastWriteWins_witness :
    serverTask200.lastUpdatedAt < rowLocal300.lastUpdatedAt ∧
    rowSynced500 ∈ handleConflict behaviorOk500 rowLocal300 serverTask200 [rowLocal300] :=
  ⟨by decide,
   ((handleConflict_lastWriteWins behaviorOk500 rowLocal300 serverTask200
       [rowLocal300]).1 (by decide)).2.1 serverTask500 rfl rowLocal300
     (by decide) rfl⟩

/-- A run of the retry loop in which every attempt in range fails: it returns
false, carries the last attempt's error, and sleeps exactly the computed
delay after every attempt but the last. -/
theorem syncWithRetryGo_all_fail (r e : Nat)
    (att : Nat → Bool × Option String) :
    ∀ (rem attempt : Nat) (le : Option String) (ds : List Nat),
      1 ≤ rem →
      (∀ j, attempt ≤ j → j < attempt + rem → (att j).1 = false) →
      syncWithRetryGo r e att rem attempt le ds
        = (false, (att (attempt + rem - 1)).2,
           ds ++ (List.range (rem - 1)).map
             (fun i => retryDelay r e (att (attempt + i)).2 (attempt + i))) := by
  intro rem
  induction rem with
  | zero => intro attempt le ds h _; exact absurd h (by omega)
  | succ rem ih =>
    intro attempt le ds _ hfail
    have hf0 : (att attempt).1 = false :=
      hfail attempt (Nat.le_refl _) (by omega)
    simp only [syncWithRetryGo, hf0]
    rcases Nat.eq_zero_or_pos rem with h0 | hpos
    · subst h0
      simp
    · rw [if_neg (by omega : ¬ rem = 0)]
      rw [ih (attempt + 1) (att attempt).2 _ hpos
        (fun j hj1 hj2 => hfail j (by omega) (by omega))]
      have harg : attempt + 1 + rem - 1 = attempt + (rem + 1) - 1 := by omega
      rw [harg]
      have hlist :
          (ds ++ [retryDelay r e (att attempt).2 attempt])
            ++ (List.range (rem - 1)).map
               (fun i => retryDelay r e (att (attempt + 1 + i)).2 (attempt + 1 + i))
          = ds ++ (List.range rem).map
               (fun i => retryDelay r e (att (attempt + i)).2 (attempt + i)) := by
        rw [List.append_assoc]
        congr 1
        obtain ⟨k, rfl⟩ := Nat.exists_eq_succ_of_ne_zero (by omega : rem ≠ 0)
        rw [List.range_succ_eq_map]
        simp only [List.map_cons, List.map_map, Nat.add_sub_cancel,
          List.singleton_append]
        congr 1
        rw [Nat.succ_sub_one]
        apply List.map_congr_left
        intro i _
        simp only [Function.comp]
        have harg2 : attempt + 1 + i = attempt + i.succ := by omega
        rw [harg2]
      rw [hlist]
      rfl

/-- A run of the retry loop that hits a first succeeding attempt within
range returns true. -/
theorem syncWithRetryGo_first_success (r e : Nat)
    (att : Nat → Bool × Option String) :
    ∀ (rem attempt k : Nat) (le : Option String) (ds : List Nat),
      attempt ≤ k → k < attempt + rem →
      (∀ j, attempt ≤ j → j < k → (att j).1 = false) →
      (att k).1 = true →
      (syncWithRetryGo r e att rem attempt le ds).1 = true := by
  intro rem
  induction rem with
  | zero => intro attempt k le ds h1 h2 _ _; exact absurd h2 (by omega)
  | succ rem ih =>
    intro attempt k le ds hak hk hfail hk1
    by_cases he : attempt = k
    · subst he
      simp [syncWithRetryGo, hk1]
    · have hlt : attempt < k := lt_of_le_of_ne hak he
      have hf : (att attempt).1 = false :=
        hfail attempt (Nat.le_refl _) hlt
      simp only [syncWithRetryGo, hf]
      rcases Nat.eq_zero_or_pos rem with h0 | hpos
      · exact absurd hk (by omega)
      · rw [if_neg (by omega : ¬ rem = 0)]
        exact ih (attempt + 1) k _ _ (by omega) (by omega)
          (fun j hj1 hj2 => hfail j (by omega) hj2) hk1

/-- C7 — confirmed.  The delay before the next attempt is the fixed auth
backoff whenever the last error mentions 'Unauthorized' (independent of the
attempt number) and `RETRY_DELAY_MS * k` after attempt `k` otherwise; the
wrapper returns true as soon as an attempt succeeds, and after all attempts
fail it returns false carrying the last attempt's error and having slept the
per-attempt delays. -/
theorem syncWithRetry_backoff_and_outcome (r e maxAttempts : Nat)
    (att : Nat → Bool × Option String) :
    (∀ err k, errIncludesUnauthorized err = true → retryDelay r e err k = e) ∧
    (∀ err k, errIncludesUnauthorized err = false →
      retryDelay r e err k = r * k) ∧
    (∀ k, 1 ≤ k → k ≤ maxAttempts →
      (∀ j, 1 ≤ j → j < k → (att j).1 = false) → (att k).1 = true →
      (syncWithRetry r e att maxAttempts).1 = true) ∧
    ((∀ j, 1 ≤ j → j ≤ maxAttempts → (att j).1 = false) → 1 ≤ maxAttempts →
      (syncWithRetry r e att maxAttempts).1 = false
      ∧ (syncWithRetry r e att maxAttempts).2.1 = (att maxAttempts).2
      ∧ (syncWithRetry r e att maxAttempts).2.2
          = (List.range (maxAttempts - 1)).map
              (fun i => retryDelay r e (att (i + 1)).2 (i + 1))) := by
  refine ⟨?_, ?_, ?_, ?_⟩
  · intro err k h; simp [retryDelay, h]
  · intro err k h; simp [retryDelay, h]
  · intro k h1 h2 hfail hsucc
    exact syncWithRetryGo_first_success r e att maxAttempts 1 k none []
      h1 (by omega) hfail hsucc
  · intro hfail hmax
    have h := syncWithRetryGo_all_fail r e att maxAttempts 1 none [] hmax
      (fun j hj1 hj2 => hfail j hj1 (by omega))
    rw [syncWithRetry, h]
    refine ⟨rfl, ?_, ?_⟩
    · have harg : 1 + maxAttempts - 1 = maxAttempts := by omega
      rw [harg]
    · rw [List.nil_append]
      apply List.map_congr_left
      intro i _
      have : 1 + i = i + 1 := by omega
      rw [this]

/-- C7 witness: three uniformly failing attempts with a non-auth error return
false with the error preserved and linear delays 10, 20. -/
theorem syncWithRetry_backoff_and_outcome_witness :
    (syncWithRetry 10 500 attAllFail 3).1 = false ∧
    (syncWithRetry 10 500 attAllFail 3).2.1 = some "boom" ∧
    (syncWithRetry 10 500 attAllFail 3).2.2 = [10, 20] := by
  have h := (syncWithRetry_backoff_and_outcome 10 500 3 attAllFail).2.2.2
    (fun j _ _ => rfl) (by omega)
  refine ⟨h.1, h.2.1, ?_⟩
  rw [h.2.2]
  decide

/-- C10 witness: the disjointness applied to a store holding a
both-flags row. -/
theorem provenance_queries_disjoint_witness :
    rowBothMD ∈ ([rowModifiedA, rowSyncedB, rowBothMD] : Store) ∧
    (rowBothMD ∈ getLocallyDeletedTasks [rowModifiedA, rowSyncedB, rowBothMD] ∧
      rowBothMD ∉ getLocallyModifiedTasks [rowModifiedA, rowSyncedB, rowBothMD] ∧
      rowBothMD ∉ getLocallyCreatedTasks [rowModifiedA, rowSyncedB, rowBothMD]) :=
  ⟨by decide,
   (provenance_queries_disjoint [rowModifiedA, rowSyncedB, rowBothMD]).2.2.2.1
     rowBothMD (by decide) (by decide) (by decide)⟩

end TaskManager
